import Mathlib

/-!
Verification of the room-segmentation backend's image-processing job
lifecycle (upload → store original → create record → segmentation worker →
store result → status transition; result retrieval; history listing).

The embedding follows the router variant (`app/routers/images.py`), whose
behaviour coincides with the monolithic variant (`app.py`) except for the
identifier scheme: the router assigns a generated string UUID as the record
id, the monolith an integer auto-increment.  External collaborators (the
MinIO blob store, the SQL record store and the segmentation worker) are
modelled as oracles in an `Env`: the worker is a function from bytes to
bytes-or-failure, blob writes may succeed or fail, and presigned-URL
generation is a function from object key to URL-or-failure.
-/

namespace RoomSeg

/-- Raw image bytes, modelled as a list of byte values. -/
abbrev Bytes := List Nat

/-- Job record status: `processing | done | failed`
(column default in `appp/models/imageRecord.py`). -/
inductive Status
  | processing
  | done
  | failed
deriving DecidableEq, Repr

/-- The `ImageRecord` row: id, owner, original blob key (`filename`),
optional result blob key (`result_filename`), status, creation time.
The router variant's id is a generated string. -/
structure ImageRecord where
  id : String
  owner_id : Nat
  filename : String
  result_filename : Option String
  status : Status
  created_at : Nat
deriving DecidableEq, Repr

/-- Combined external state: the blob store (a log of puts, key with
content) and the record store (a list of rows). -/
structure SysState where
  blobs : List (String × Bytes)
  records : List ImageRecord
deriving DecidableEq, Repr

/-- Oracles for the external collaborators: the segmentation worker
(`run_segmentation_bytes`), the success of the two `put_object` calls, and
`presigned_get_object`. -/
structure Env where
  worker : Bytes → Except String Bytes
  putOriginalOk : Bool
  putResultOk : Bool
  presign : String → Except String String

/-- Errors surfaced by the upload endpoint: 400 for a non-image content
type, an unhandled storage exception for a failed original put, and the
500 "Segmentation failed" for a worker or result-put failure. -/
inductive UploadError
  | invalidInput
  | storageError (key : String)
  | processingError (msg : String)
deriving DecidableEq, Repr

/-- The upload endpoint's success payload `{"id": record.id, "status": "done"}`. -/
structure UploadResponse where
  id : String
  status : Status
deriving DecidableEq, Repr

/-- `file.content_type.startswith("image/")`: the declared content type
begins with the `image/` prefix. -/
def isImageContentType (contentType : String) : Bool :=
  "image/".toList.isPrefixOf contentType.toList

/-- The original's object key: `uploads/{user.id}_{timestamp}_{file.filename}`. -/
def uploadObjectName (ownerId : Nat) (timestamp fileName : String) : String :=
  "uploads/" ++ Nat.repr ownerId ++ "_" ++ timestamp ++ "_" ++ fileName

/-- The result's object key: `results/result_{record.id}.png`. -/
def resultObjectName (jobId : String) : String :=
  "results/result_" ++ jobId ++ ".png"

/-- The record as created in step 2 of the upload handler: fresh id, the
caller as owner, the original's key as `filename`; `result_filename` and
`status` take their column defaults (`NULL` and `"processing"`). -/
def newRecord (freshId : String) (ownerId : Nat) (objectName : String)
    (now : Nat) : ImageRecord :=
  { id := freshId, owner_id := ownerId, filename := objectName,
    result_filename := none, status := .processing, created_at := now }

/-- The `POST /images/upload` handler.  `freshId` is the generated record
id, `timestamp` the formatted current time, `now` the record's creation
time.  Mirrors the handler's control flow: reject a non-image content
type; put the original (an exception here is unhandled and leaves no
record); create the record with status `processing`; run the worker and
put the result, committing `result_filename` and `status = done` on
success; on any exception in that block commit `status = failed` and
surface the 500. -/
def uploadImage (env : Env) (ownerId : Nat) (contentType fileName : String)
    (fileBytes : Bytes) (freshId timestamp : String) (now : Nat)
    (s : SysState) : Except UploadError UploadResponse × SysState :=
  if ¬ isImageContentType contentType then
    (.error .invalidInput, s)
  else
    let objectName := uploadObjectName ownerId timestamp fileName
    if ¬ env.putOriginalOk then
      (.error (.storageError objectName), s)
    else
      let s1 : SysState := { s with blobs := s.blobs ++ [(objectName, fileBytes)] }
      let record := newRecord freshId ownerId objectName now
      match env.worker fileBytes with
      | .error msg =>
          (.error (.processingError msg),
           { s1 with records := s1.records ++ [{ record with status := .failed }] })
      | .ok resultBytes =>
          let resultFilename := resultObjectName freshId
          if ¬ env.putResultOk then
            (.error (.processingError "blob write failed"),
             { s1 with records := s1.records ++ [{ record with status := .failed }] })
          else
            (.ok { id := freshId, status := .done },
             { blobs := s1.blobs ++ [(resultFilename, resultBytes)],
               records := s1.records ++
                 [{ record with result_filename := some resultFilename,
                                status := .done }] })

/-- Errors of `GET /images/{image_id}/result`: 404, 403, and the 500 for a
failed presigned-URL generation. -/
inductive GetResultError
  | notFound
  | forbidden
  | storageError (msg : String)
deriving DecidableEq, Repr

/-- The result endpoint's success payload: `{"status": status}` when not
done, `{"status": "done", "url": url}` when done. -/
inductive ResultView
  | statusOnly (status : Status)
  | doneWithUrl (url : String)
deriving DecidableEq, Repr

/-- The `GET /images/{image_id}/result` handler.  The path parameter is
declared `image_id: int`, so the lookup compares the record's string id
against the integer's rendering; ownership is checked before status; a
non-done record yields a status-only view; a done record's
`result_filename` is presigned, a failure there surfacing the 500.  No
branch mutates the state. -/
def getResult (env : Env) (imageId : Nat) (requesterId : Nat) (s : SysState) :
    Except GetResultError ResultView × SysState :=
  match s.records.find? (fun r => r.id == Nat.repr imageId) with
  | none => (.error .notFound, s)
  | some record =>
      if record.owner_id ≠ requesterId then
        (.error .forbidden, s)
      else if record.status ≠ .done then
        (.ok (.statusOnly record.status), s)
      else
        match env.presign (record.result_filename.getD "") with
        | .error msg => (.error (.storageError msg), s)
        | .ok url => (.ok (.doneWithUrl url), s)

/-- One history entry:
`{id, created_at, status, original_url, result_url}`. -/
structure HistoryEntry where
  id : String
  created_at : Nat
  status : Status
  original_url : String
  result_url : Option String
deriving DecidableEq, Repr

/-- One iteration of the history loop: presign the original
(unconditionally), then presign the result key when `result_filename` is
truthy (`None` and the empty string are both falsy in the source). -/
def resolveHistoryEntry (env : Env) (r : ImageRecord) :
    Except String HistoryEntry :=
  match env.presign r.filename with
  | .error msg => .error msg
  | .ok originalUrl =>
      match r.result_filename with
      | none =>
          .ok { id := r.id, created_at := r.created_at, status := r.status,
                original_url := originalUrl, result_url := none }
      | some rf =>
          if rf = "" then
            .ok { id := r.id, created_at := r.created_at, status := r.status,
                  original_url := originalUrl, result_url := none }
          else
            match env.presign rf with
            | .error msg => .error msg
            | .ok resultUrl =>
                .ok { id := r.id, created_at := r.created_at, status := r.status,
                      original_url := originalUrl, result_url := some resultUrl }

/-- The history loop over the owner's records: the first presign failure
escapes the handler, aborting the whole call. -/
def resolveHistory (env : Env) : List ImageRecord → Except String (List HistoryEntry)
  | [] => .ok []
  | r :: rs =>
      match resolveHistoryEntry env r with
      | .error msg => .error msg
      | .ok e =>
          match resolveHistory env rs with
          | .error msg => .error msg
          | .ok es => .ok (e :: es)

/-- The `GET /images/history` handler: select the requester's records and
resolve each to an entry.  No branch mutates the state. -/
def getHistory (env : Env) (requesterId : Nat) (s : SysState) :
    Except String (List HistoryEntry) × SysState :=
  (resolveHistory env (s.records.filter (fun r => r.owner_id == requesterId)), s)

/-- Modelled from the spec: `generate_uuid` (`app/core/utils.py`, absent
from the sources) produces a fresh opaque string identifier; the spec's
data model names the UUID variant, so the id is a canonical UUID string —
36 characters, dashes at positions 8, 13, 18 and 23, hex digits
elsewhere. -/
def isUuidString (t : String) : Bool :=
  t.length == 36 &&
  t.toList.get? 8 == some '-' &&
  t.toList.get? 13 == some '-' &&
  t.toList.get? 18 == some '-' &&
  t.toList.get? 23 == some '-' &&
  t.toList.all (fun c => c == '-' || c.isDigit ||
    ('a' ≤ c && c ≤ 'f') || ('A' ≤ c && c ≤ 'F'))

/-- Well-formedness of a stored record: a done record's `result_filename`
is the derived result key for its id, any other record has none. -/
def RecordWF (r : ImageRecord) : Prop :=
  (r.status = .done → r.result_filename = some (resultObjectName r.id)) ∧
  (r.status ≠ .done → r.result_filename = none)

/-- States reachable from the empty stores through the three handlers. -/
inductive Reachable : SysState → Prop
  | init : Reachable { blobs := [], records := [] }
  | upload (env : Env) (ownerId : Nat) (contentType fileName : String)
      (fileBytes : Bytes) (freshId timestamp : String) (now : Nat)
      (s : SysState) : Reachable s →
      Reachable (uploadImage env ownerId contentType fileName fileBytes
        freshId timestamp now s).2
  | result (env : Env) (imageId requesterId : Nat) (s : SysState) :
      Reachable s → Reachable (getResult env imageId requesterId s).2
  | history (env : Env) (requesterId : Nat) (s : SysState) :
      Reachable s → Reachable (getHistory env requesterId s).2

/-! ### Branch characterizations of the handlers -/

theorem uploadImage_not_image (env : Env) (ownerId : Nat)
    (contentType fileName : String) (fileBytes : Bytes)
    (freshId timestamp : String) (now : Nat) (s : SysState)
    (hct : isImageContentType contentType = false) :
    uploadImage env ownerId contentType fileName fileBytes freshId timestamp
      now s = (.error .invalidInput, s) := by
  unfold uploadImage
  simp [hct]

theorem uploadImage_put_original_fails (env : Env) (ownerId : Nat)
    (contentType fileName : String) (fileBytes : Bytes)
    (freshId timestamp : String) (now : Nat) (s : SysState)
    (hct : isImageContentType contentType = true)
    (hput : env.putOriginalOk = false) :
    uploadImage env ownerId contentType fileName fileBytes freshId timestamp
      now s
      = (.error (.storageError (uploadObjectName ownerId timestamp fileName)),
         s) := by
  unfold uploadImage
  simp [hct, hput]

theorem uploadImage_worker_fails (env : Env) (ownerId : Nat)
    (contentType fileName : String) (fileBytes : Bytes)
    (freshId timestamp : String) (now : Nat) (s : SysState) (msg : String)
    (hct : isImageContentType contentType = true)
    (hput : env.putOriginalOk = true)
    (hw : env.worker fileBytes = .error msg) :
    uploadImage env ownerId contentType fileName fileBytes freshId timestamp
      now s
      = (.error (.processingError msg),
         { blobs := s.blobs ++
             [(uploadObjectName ownerId timestamp fileName, fileBytes)],
           records := s.records ++
             [{ newRecord freshId ownerId
                  (uploadObjectName ownerId timestamp fileName) now with
                status := .failed }] }) := by
  unfold uploadImage
  simp [hct, hput, hw]

theorem uploadImage_put_result_fails (env : Env) (ownerId : Nat)
    (contentType fileName : String) (fileBytes : Bytes)
    (freshId timestamp : String) (now : Nat) (s : SysState)
    (resultBytes : Bytes)
    (hct : isImageContentType contentType = true)
    (hput : env.putOriginalOk = true)
    (hw : env.worker fileBytes = .ok resultBytes)
    (hput2 : env.putResultOk = false) :
    uploadImage env ownerId contentType fileName fileBytes freshId timestamp
      now s
      = (.error (.processingError "blob write failed"),
         { blobs := s.blobs ++
             [(uploadObjectName ownerId timestamp fileName, fileBytes)],
           records := s.records ++
             [{ newRecord freshId ownerId
                  (uploadObjectName ownerId timestamp fileName) now with
                status := .failed }] }) := by
  unfold uploadImage
  simp [hct, hput, hw, hput2]

theorem uploadImage_success (env : Env) (ownerId : Nat)
    (contentType fileName : String) (fileBytes : Bytes)
    (freshId timestamp : String) (now : Nat) (s : SysState)
    (resultBytes : Bytes)
    (hct : isImageContentType contentType = true)
    (hput : env.putOriginalOk = true)
    (hw : env.worker fileBytes = .ok resultBytes)
    (hput2 : env.putResultOk = true) :
    uploadImage env ownerId contentType fileName fileBytes freshId timestamp
      now s
      = (.ok { id := freshId, status := .done },
         { blobs := s.blobs ++
             [(uploadObjectName ownerId timestamp fileName, fileBytes),
              (resultObjectName freshId, resultBytes)],
           records := s.records ++
             [{ newRecord freshId ownerId
                  (uploadObjectName ownerId timestamp fileName) now with
                result_filename := some (resultObjectName freshId),
                status := .done }] }) := by
  unfold uploadImage
  simp [hct, hput, hw, hput2]

theorem getResult_snd (env : Env) (imageId requesterId : Nat) (s : SysState) :
    (getResult env imageId requesterId s).2 = s := by
  unfold getResult
  cases s.records.find? (fun r => r.id == Nat.repr imageId) with
  | none => rfl
  | some record =>
      by_cases h1 : record.owner_id ≠ requesterId
      · simp [h1]
      · by_cases h2 : record.status ≠ Status.done
        · simp [h1, h2]
        · cases hp : env.presign (record.result_filename.getD "") <;>
            simp [h1, h2, hp]

theorem getHistory_snd (env : Env) (requesterId : Nat) (s : SysState) :
    (getHistory env requesterId s).2 = s := rfl

/-! ### Decimal renderings never contain a dash -/

theorem digitChar_ne_dash (m : Nat) : Nat.digitChar m ≠ '-' := by
  by_cases h : m < 16
  · have hall : ∀ k, k < 16 → Nat.digitChar k ≠ '-' := by decide
    exact hall m h
  · have hstar : Nat.digitChar m = '*' := by
      unfold Nat.digitChar
      repeat rw [if_neg (by omega)]
    rw [hstar]; decide

theorem toDigitsCore_ne_dash (fuel : Nat) :
    ∀ (n : Nat) (ds : List Char), (∀ c ∈ ds, c ≠ '-') →
      ∀ c ∈ Nat.toDigitsCore 10 fuel n ds, c ≠ '-' := by
  induction fuel with
  | zero => intro n ds hds c hc; exact hds c hc
  | succ fuel ih =>
      intro n ds hds c hc
      unfold Nat.toDigitsCore at hc
      dsimp only at hc
      split at hc
      · rcases List.mem_cons.mp hc with h | h
        · rw [h]; exact digitChar_ne_dash _
        · exact hds c h
      · refine ih _ _ ?_ c hc
        intro x hx
        rcases List.mem_cons.mp hx with h | h
        · rw [h]; exact digitChar_ne_dash _
        · exact hds x h

theorem repr_char_ne_dash (n : Nat) : ∀ c ∈ (Nat.repr n).toList, c ≠ '-' := by
  intro c hc
  have he : (Nat.repr n).toList = Nat.toDigitsCore 10 (n + 1) n [] := rfl
  rw [he] at hc
  exact toDigitsCore_ne_dash (n + 1) n [] (by intro x hx; cases hx) c hc

theorem uuid_beq_repr_false {t : String} (ht : isUuidString t = true)
    (n : Nat) : (t == Nat.repr n) = false := by
  rw [beq_eq_false_iff_ne]
  intro he
  have h8 : t.toList.get? 8 = some '-' := by
    unfold isUuidString at ht
    simp only [Bool.and_eq_true, beq_iff_eq] at ht
    exact ht.1.1.1.1.2
  have hm : '-' ∈ t.toList := List.get?_mem h8
  rw [he] at hm
  exact repr_char_ne_dash n '-' hm rfl

/-! ### Well-formedness of reachable states -/

theorem recordWF_failed (freshId : String) (ownerId : Nat)
    (objectName : String) (now : Nat) :
    RecordWF { newRecord freshId ownerId objectName now with
                 status := .failed } := by
  constructor
  · intro h; cases h
  · intro _; rfl

theorem recordWF_done (freshId : String) (ownerId : Nat)
    (objectName : String) (now : Nat) :
    RecordWF { newRecord freshId ownerId objectName now with
                 result_filename := some (resultObjectName freshId),
                 status := .done } := by
  constructor
  · intro _; rfl
  · intro h; exact absurd rfl h

theorem reachable_wf {s : SysState} (h : Reachable s) :
    ∀ r ∈ s.records, RecordWF r := by
  induction h with
  | init => intro r hr; cases hr
  | upload env ownerId contentType fileName fileBytes freshId timestamp now
      s hs ih =>
      intro r hr
      by_cases hct : isImageContentType contentType = true
      · by_cases hput : env.putOriginalOk = true
        · cases hw : env.worker fileBytes with
          | error msg =>
              rw [uploadImage_worker_fails env ownerId contentType fileName
                fileBytes freshId timestamp now s msg hct hput hw] at hr
              rcases List.mem_append.mp hr with h1 | h1
              · exact ih r h1
              · rw [List.mem_singleton.mp h1]; exact recordWF_failed _ _ _ _
          | ok resultBytes =>
              by_cases hput2 : env.putResultOk = true
              · rw [uploadImage_success env ownerId contentType fileName
                  fileBytes freshId timestamp now s resultBytes hct hput hw
                  hput2] at hr
                rcases List.mem_append.mp hr with h1 | h1
                · exact ih r h1
                · rw [List.mem_singleton.mp h1]; exact recordWF_done _ _ _ _
              · rw [uploadImage_put_result_fails env ownerId contentType
                  fileName fileBytes freshId timestamp now s resultBytes hct
                  hput hw (by simpa using hput2)] at hr
                rcases List.mem_append.mp hr with h1 | h1
                · exact ih r h1
                · rw [List.mem_singleton.mp h1]; exact recordWF_failed _ _ _ _
        · rw [uploadImage_put_original_fails env ownerId contentType fileName
            fileBytes freshId timestamp now s hct (by simpa using hput)] at hr
          exact ih r hr
      · rw [uploadImage_not_image env ownerId contentType fileName fileBytes
          freshId timestamp now s (by simpa using hct)] at hr
        exact ih r hr
  | result env imageId requesterId s hs ih =>
      intro r hr
      rw [getResult_snd env imageId requesterId s] at hr
      exact ih r hr
  | history env requesterId s hs ih =>
      intro r hr
      rw [getHistory_snd env requesterId s] at hr
      exact ih r hr

/-! ### Resolution of history entries -/

theorem resultObjectName_ne_empty (j : String) : resultObjectName j ≠ "" := by
  intro h
  have h2 := congrArg String.length h
  rw [show resultObjectName j = "results/result_" ++ j ++ ".png" from rfl,
      String.length_append, String.length_append] at h2
  have e1 : ("results/result_" : String).length = 15 := rfl
  have e2 : (".png" : String).length = 4 := rfl
  have e3 : ("" : String).length = 0 := rfl
  rw [e1, e2, e3] at h2
  omega

/-- The correspondence the history endpoint establishes between a stored
record and the entry returned for it. -/
def HistoryEntryMatches (r : ImageRecord) (e : HistoryEntry) : Prop :=
  e.id = r.id ∧ e.created_at = r.created_at ∧ e.status = r.status ∧
  (e.status = Status.done → ∃ u, e.result_url = some u ∧ u ≠ "") ∧
  (e.status ≠ Status.done → e.result_url = none)

theorem resolveHistoryEntry_fields (env : Env) (r : ImageRecord)
    (e : HistoryEntry) (h : resolveHistoryEntry env r = .ok e) :
    e.id = r.id ∧ e.created_at = r.created_at ∧ e.status = r.status ∧
    ((r.result_filename = none ∨ r.result_filename = some "") →
        e.result_url = none) ∧
    (∀ rf, r.result_filename = some rf → rf ≠ "" →
        ∃ u, env.presign rf = .ok u ∧ e.result_url = some u) := by
  unfold resolveHistoryEntry at h
  cases hp : env.presign r.filename with
  | error msg => rw [hp] at h; cases h
  | ok ourl =>
      rw [hp] at h
      cases hrf : r.result_filename with
      | none =>
          rw [hrf] at h
          cases h
          refine ⟨rfl, rfl, rfl, fun _ => rfl, ?_⟩
          intro rf hrf2 _
          cases hrf2
      | some rf =>
          rw [hrf] at h
          dsimp only at h
          by_cases hempty : rf = ""
          · rw [if_pos hempty] at h
            cases h
            refine ⟨rfl, rfl, rfl, fun _ => rfl, ?_⟩
            intro rf2 hrf2 hne
            injection hrf2 with he2
            exact absurd (hempty ▸ he2) (fun hx => hne hx.symm)
          · rw [if_neg hempty] at h
            cases hpr : env.presign rf with
            | error m => rw [hpr] at h; cases h
            | ok u =>
                rw [hpr] at h
                cases h
                refine ⟨rfl, rfl, rfl, ?_, ?_⟩
                · intro hdisj
                  rcases hdisj with h1 | h1
                  · cases h1
                  · injection h1 with h2; exact absurd h2 hempty
                · intro rf2 hrf2 _
                  injection hrf2 with he2
                  rw [← he2]
                  exact ⟨u, hpr, rfl⟩

theorem resolveHistory_forall₂ (env : Env)
    (hpres : ∀ k u, env.presign k = .ok u → u ≠ "") :
    ∀ (l : List ImageRecord), (∀ r ∈ l, RecordWF r) →
      ∀ entries, resolveHistory env l = .ok entries →
        List.Forall₂ HistoryEntryMatches l entries := by
  intro l
  induction l with
  | nil =>
      intro _ entries h
      unfold resolveHistory at h
      cases h
      exact List.Forall₂.nil
  | cons r rs ih =>
      intro hwf entries h
      unfold resolveHistory at h
      cases he : resolveHistoryEntry env r with
      | error m => rw [he] at h; cases h
      | ok e =>
          rw [he] at h
          cases hrest : resolveHistory env rs with
          | error m => rw [hrest] at h; cases h
          | ok es =>
              rw [hrest] at h
              cases h
              refine List.Forall₂.cons ?_
                (ih (fun x hx => hwf x (List.mem_cons_of_mem r hx)) es hrest)
              obtain ⟨hid, hca, hst, hnone, hsome⟩ :=
                resolveHistoryEntry_fields env r e he
              obtain ⟨hwdone, hwnot⟩ := hwf r (List.mem_cons_self r rs)
              refine ⟨hid, hca, hst, ?_, ?_⟩
              · intro hed
                rw [hst] at hed
                obtain ⟨u, hpru, heu⟩ :=
                  hsome _ (hwdone hed) (resultObjectName_ne_empty r.id)
                exact ⟨u, heu, hpres _ _ hpru⟩
              · intro hed
                rw [hst] at hed
                exact hnone (Or.inl (hwnot hed))

theorem resolveHistory_error_of_mem (env : Env) :
    ∀ (l : List ImageRecord) (r : ImageRecord) (msg : String), r ∈ l →
      resolveHistoryEntry env r = .error msg →
      ∃ m, resolveHistory env l = .error m := by
  intro l
  induction l with
  | nil => intro r msg hr; cases hr
  | cons x xs ih =>
      intro r msg hr hfail
      cases hx : resolveHistoryEntry env x with
      | error m =>
          refine ⟨m, ?_⟩
          unfold resolveHistory
          rw [hx]
      | ok e =>
          rcases List.mem_cons.mp hr with h1 | h1
          · subst h1; rw [hx] at hfail; cases hfail
          · obtain ⟨m, hm⟩ := ih r msg h1 hfail
            refine ⟨m, ?_⟩
            unfold resolveHistory
            rw [hx, hm]

/-! ### Concrete environments, states and records used by witnesses -/

def envW : Env :=
  { worker := fun bs => .ok (0 :: bs),
    putOriginalOk := true,
    putResultOk := true,
    presign := fun _ => .ok "signed-url" }

def envFailW : Env :=
  { worker := fun _ => .error "cannot identify image file",
    putOriginalOk := true,
    putResultOk := true,
    presign := fun _ => .ok "signed-url" }

def uuidW : String := "ab12cd34-1111-2222-3333-444455556666"

def s0 : SysState := { blobs := [], records := [] }

def stateW : SysState :=
  (uploadImage envW 1 "image/png" "room.jpg" [7] uuidW "ts" 5 s0).2

def recW : ImageRecord :=
  { id := uuidW, owner_id := 1,
    filename := uploadObjectName 1 "ts" "room.jpg",
    result_filename := some (resultObjectName uuidW),
    status := .done, created_at := 5 }

def entryW : HistoryEntry :=
  { id := uuidW, created_at := 5, status := .done,
    original_url := "signed-url", result_url := some "signed-url" }

theorem envW_presign_nonempty :
    ∀ k u, envW.presign k = .ok u → u ≠ "" := by
  intro k u h
  injection h with h2
  rw [← h2]
  decide

def recA : ImageRecord :=
  { id := "aaaa", owner_id := 1, filename := "uploads/a",
    result_filename := none, status := .failed, created_at := 1 }

def recB : ImageRecord :=
  { id := "bbbb", owner_id := 1, filename := "uploads/b",
    result_filename := some "results/result_bbbb.png",
    status := .done, created_at := 2 }

def stateCex : SysState := { blobs := [], records := [recA, recB] }

def envCex : Env :=
  { worker := fun bs => .ok bs,
    putOriginalOk := true,
    putResultOk := true,
    presign := fun k => if k = "uploads/a" then .error "boom"
      else .ok "ok-url" }

def entryB : HistoryEntry :=
  { id := "bbbb", created_at := 2, status := .done,
    original_url := "ok-url", result_url := some "ok-url" }

/-! ### Claims -/

/-- C1: for every upload accepted by submit (the content type indicates an
image), the call returns only after the segmentation worker has run to
completion or failure, and the status in the response equals the job
record's stored status at that moment: a successful return carries
`{id, status: done}` and the persisted record has status `done` with
`result_key` set; a `ProcessingError` return leaves the persisted record
`failed` — no divergence between stored state and response. -/
theorem upload_response_matches_persisted_status (env : Env) (ownerId : Nat)
    (contentType fileName : String) (fileBytes : Bytes)
    (freshId timestamp : String) (now : Nat) (s : SysState)
    (hct : isImageContentType contentType = true) :
    (∀ resp, (uploadImage env ownerId contentType fileName fileBytes freshId
        timestamp now s).1 = .ok resp →
      (∃ rb, env.worker fileBytes = .ok rb) ∧
      resp = { id := freshId, status := .done } ∧
      (uploadImage env ownerId contentType fileName fileBytes freshId
          timestamp now s).2.records = s.records ++
        [{ newRecord freshId ownerId
             (uploadObjectName ownerId timestamp fileName) now with
           result_filename := some (resultObjectName freshId),
           status := .done }]) ∧
    (∀ msg, (uploadImage env ownerId contentType fileName fileBytes freshId
        timestamp now s).1 = .error (.processingError msg) →
      (uploadImage env ownerId contentType fileName fileBytes freshId
          timestamp now s).2.records = s.records ++
        [{ newRecord freshId ownerId
             (uploadObjectName ownerId timestamp fileName) now with
           status := .failed }]) := by
  constructor
  · intro resp hresp
    by_cases hput : env.putOriginalOk = true
    · cases hw : env.worker fileBytes with
      | error msg =>
          rw [uploadImage_worker_fails env ownerId contentType fileName
            fileBytes freshId timestamp now s msg hct hput hw] at hresp
          cases hresp
      | ok rb =>
          by_cases hput2 : env.putResultOk = true
          · rw [uploadImage_success env ownerId contentType fileName
              fileBytes freshId timestamp now s rb hct hput hw hput2]
              at hresp ⊢
            refine ⟨⟨rb, rfl⟩, ?_, rfl⟩
            injection hresp with h2
            exact h2.symm
          · rw [uploadImage_put_result_fails env ownerId contentType fileName
              fileBytes freshId timestamp now s rb hct hput hw
              (by simpa using hput2)] at hresp
            cases hresp
    · rw [uploadImage_put_original_fails env ownerId contentType fileName
        fileBytes freshId timestamp now s hct (by simpa using hput)] at hresp
      cases hresp
  · intro msg hmsg
    by_cases hput : env.putOriginalOk = true
    · cases hw : env.worker fileBytes with
      | error m =>
          rw [uploadImage_worker_fails env ownerId contentType fileName
            fileBytes freshId timestamp now s m hct hput hw]
      | ok rb =>
          by_cases hput2 : env.putResultOk = true
          · rw [uploadImage_success env ownerId contentType fileName
              fileBytes freshId timestamp now s rb hct hput hw hput2] at hmsg
            cases hmsg
          · rw [uploadImage_put_result_fails env ownerId contentType fileName
              fileBytes freshId timestamp now s rb hct hput hw
              (by simpa using hput2)]
    · rw [uploadImage_put_original_fails env ownerId contentType fileName
        fileBytes freshId timestamp now s hct (by simpa using hput)] at hmsg
      simp at hmsg

theorem upload_response_matches_persisted_status_witness :
    (uploadImage envW 1 "image/png" "room.jpg" [7] uuidW "ts" 5 s0).2.records
      = s0.records ++
        [{ newRecord uuidW 1 (uploadObjectName 1 "ts" "room.jpg") 5 with
           result_filename := some (resultObjectName uuidW),
           status := Status.done }] :=
  ((upload_response_matches_persisted_status envW 1 "image/png" "room.jpg"
      [7] uuidW "ts" 5 s0 rfl).1 { id := uuidW, status := .done } rfl).2.2

/-- C2: for every upload where the segmentation worker fails or the result
blob write fails, submit persists `status = failed` on the job record while
surfacing a `ProcessingError`; the terminal status is never `done` and
`result_key` remains unset. -/
theorem upload_worker_failure_persists_failed (env : Env) (ownerId : Nat)
    (contentType fileName : String) (fileBytes : Bytes)
    (freshId timestamp : String) (now : Nat) (s : SysState)
    (hct : isImageContentType contentType = true)
    (hput : env.putOriginalOk = true)
    (hfail : (∃ msg, env.worker fileBytes = .error msg) ∨
      env.putResultOk = false) :
    (∃ msg, uploadImage env ownerId contentType fileName fileBytes freshId
        timestamp now s
      = (.error (.processingError msg),
         { blobs := s.blobs ++
             [(uploadObjectName ownerId timestamp fileName, fileBytes)],
           records := s.records ++
             [{ newRecord freshId ownerId
                  (uploadObjectName ownerId timestamp fileName) now with
                status := .failed }] })) ∧
    (∀ resp, (uploadImage env ownerId contentType fileName fileBytes freshId
        timestamp now s).1 ≠ .ok resp) ∧
    ({ newRecord freshId ownerId
         (uploadObjectName ownerId timestamp fileName) now with
       status := Status.failed }).result_filename = none := by
  have hmain : ∃ msg, uploadImage env ownerId contentType fileName fileBytes
      freshId timestamp now s
      = (.error (.processingError msg),
         { blobs := s.blobs ++
             [(uploadObjectName ownerId timestamp fileName, fileBytes)],
           records := s.records ++
             [{ newRecord freshId ownerId
                  (uploadObjectName ownerId timestamp fileName) now with
                status := .failed }] }) := by
    rcases hfail with ⟨msg, hw⟩ | hput2
    · exact ⟨msg, uploadImage_worker_fails env ownerId contentType fileName
        fileBytes freshId timestamp now s msg hct hput hw⟩
    · cases hw : env.worker fileBytes with
      | error m =>
          exact ⟨m, uploadImage_worker_fails env ownerId contentType fileName
            fileBytes freshId timestamp now s m hct hput hw⟩
      | ok rb =>
          exact ⟨"blob write failed", uploadImage_put_result_fails env ownerId
            contentType fileName fileBytes freshId timestamp now s rb hct hput
            hw hput2⟩
  refine ⟨hmain, ?_, rfl⟩
  intro resp hresp
  obtain ⟨msg, hmsg⟩ := hmain
  rw [hmsg] at hresp
  cases hresp

theorem upload_worker_failure_persists_failed_witness :
    ∃ msg, uploadImage envFailW 1 "image/png" "a.jpg" [9] uuidW "ts" 5 s0
      = (.error (.processingError msg),
         { blobs := s0.blobs ++ [(uploadObjectName 1 "ts" "a.jpg", [9])],
           records := s0.records ++
             [{ newRecord uuidW 1 (uploadObjectName 1 "ts" "a.jpg") 5 with
                status := .failed }] }) :=
  (upload_worker_failure_persists_failed envFailW 1 "image/png" "a.jpg" [9]
    uuidW "ts" 5 s0 rfl rfl
    (Or.inl ⟨"cannot identify image file", rfl⟩)).1

/-- C3: on every reachable state, every job record satisfies the
invariant that `result_key` (`result_filename`) is set if and only if the
status is `done`; moreover a record as created carries status `processing`
and no `result_key`, and the transition to `failed` never sets one (the
failed record above keeps `result_filename = none`, as C2's theorem also
pins). -/
theorem result_key_set_iff_status_done (s : SysState) (h : Reachable s) :
    (∀ r ∈ s.records,
      r.result_filename.isSome = true ↔ r.status = Status.done) ∧
    (∀ freshId ownerId objectName now,
      (newRecord freshId ownerId objectName now).status = Status.processing ∧
      (newRecord freshId ownerId objectName now).result_filename = none) := by
  refine ⟨?_, fun f o k t => ⟨rfl, rfl⟩⟩
  intro r hr
  obtain ⟨hdone, hnot⟩ := reachable_wf h r hr
  constructor
  · intro hsome
    by_contra hne
    rw [hnot hne] at hsome
    cases hsome
  · intro hd
    rw [hdone hd]
    rfl

theorem result_key_set_iff_status_done_witness :
    recW.result_filename.isSome = true ↔ recW.status = Status.done :=
  (result_key_set_iff_status_done stateW
    (Reachable.upload envW 1 "image/png" "room.jpg" [7] uuidW "ts" 5 s0
      Reachable.init)).1 recW (by decide)

/-- C4: `getResult` fails with `NotFound` when the lookup finds no record;
fails with `Forbidden` whenever the record exists and its owner differs
from the requester, regardless of status; returns a status-only view when
the status is not `done`; when `done`, returns a signed URL for the result
key, failing with `StorageError` if URL generation fails — and in every
case it does not mutate the state. -/
theorem get_result_access_and_view_cases (env : Env)
    (imageId requesterId : Nat) (s : SysState) :
    (s.records.find? (fun r => r.id == Nat.repr imageId) = none →
      getResult env imageId requesterId s = (.error .notFound, s)) ∧
    (∀ record,
      s.records.find? (fun r => r.id == Nat.repr imageId) = some record →
      (record.owner_id ≠ requesterId →
        getResult env imageId requesterId s = (.error .forbidden, s)) ∧
      (record.owner_id = requesterId → record.status ≠ .done →
        getResult env imageId requesterId s
          = (.ok (.statusOnly record.status), s)) ∧
      (record.owner_id = requesterId → record.status = .done →
        (∀ msg, env.presign (record.result_filename.getD "") = .error msg →
          getResult env imageId requesterId s
            = (.error (.storageError msg), s)) ∧
        (∀ url, env.presign (record.result_filename.getD "") = .ok url →
          getResult env imageId requesterId s
            = (.ok (.doneWithUrl url), s)))) ∧
    (getResult env imageId requesterId s).2 = s := by
  refine ⟨?_, ?_, getResult_snd env imageId requesterId s⟩
  · intro h
    unfold getResult
    rw [h]
  · intro record h
    refine ⟨?_, ?_, ?_⟩
    · intro hown
      unfold getResult
      rw [h]
      simp [hown]
    · intro hown hst
      unfold getResult
      rw [h]
      simp [hown, hst]
    · intro hown hst
      constructor
      · intro msg hp
        unfold getResult
        rw [h]
        simp [hown, hst, hp]
      · intro url hp
        unfold getResult
        rw [h]
        simp [hown, hst, hp]

theorem get_result_access_and_view_cases_witness :
    getResult envW 3 1 stateW = (.error .notFound, stateW) :=
  (get_result_access_and_view_cases envW 3 1 stateW).1 (by decide)

/-- C5: when submit is called with a content type that does not indicate
an image, it fails with `InvalidInput` and has no side effects: the state
(blob store and record store) is unchanged, so the caller's subsequent
`listHistory` result is unchanged too. -/
theorem upload_rejects_non_image_without_side_effects (env : Env)
    (ownerId : Nat) (contentType fileName : String) (fileBytes : Bytes)
    (freshId timestamp : String) (now : Nat) (s : SysState)
    (hct : isImageContentType contentType = false) :
    uploadImage env ownerId contentType fileName fileBytes freshId timestamp
        now s = (.error .invalidInput, s) ∧
    (∀ (env2 : Env) (requesterId : Nat),
      getHistory env2 requesterId
        (uploadImage env ownerId contentType fileName fileBytes freshId
          timestamp now s).2
        = getHistory env2 requesterId s) := by
  have h := uploadImage_not_image env ownerId contentType fileName fileBytes
    freshId timestamp now s hct
  refine ⟨h, ?_⟩
  intro env2 requesterId
  rw [h]

theorem upload_rejects_non_image_without_side_effects_witness :
    uploadImage envW 1 "text/plain" "a.txt" [1] uuidW "ts" 5 s0
      = (.error .invalidInput, s0) :=
  (upload_rejects_non_image_without_side_effects envW 1 "text/plain" "a.txt"
    [1] uuidW "ts" 5 s0 rfl).1

/-- C6: on every reachable state, when `listHistory` succeeds it returns
entries in one-to-one correspondence with exactly the requester's records
(the filter by owner) — no record of another owner included, none of the
requester's omitted — and, assuming the blob store's signed URLs are
non-empty strings, every entry with status `done` carries a non-empty
result URL while entries with status `processing` or `failed` carry no
result URL. -/
theorem history_returns_exactly_owned_records (env : Env)
    (requesterId : Nat) (s : SysState) (hreach : Reachable s)
    (hpres : ∀ k u, env.presign k = .ok u → u ≠ "") :
    ∀ entries, (getHistory env requesterId s).1 = .ok entries →
      List.Forall₂ HistoryEntryMatches
        (s.records.filter (fun r => r.owner_id == requesterId)) entries ∧
      entries.length
        = (s.records.filter (fun r => r.owner_id == requesterId)).length ∧
      (getHistory env requesterId s).2 = s := by
  intro entries h
  have hwf : ∀ r ∈ s.records.filter (fun r => r.owner_id == requesterId),
      RecordWF r :=
    fun r hr => reachable_wf hreach r (List.mem_of_mem_filter hr)
  have hf := resolveHistory_forall₂ env hpres _ hwf entries h
  exact ⟨hf, (List.Forall₂.length_eq hf).symm, rfl⟩

theorem history_returns_exactly_owned_records_witness :
    (getHistory envW 1 stateW).2 = stateW :=
  (history_returns_exactly_owned_records envW 1 stateW
    (Reachable.upload envW 1 "image/png" "room.jpg" [7] uuidW "ts" 5 s0
      Reachable.init)
    envW_presign_nonempty [entryW] rfl).2.2

/-- C7, counterexample: the claim that a signed-URL failure for one record
does not abort the resolution of the others is false of the code.  In the
concrete state `stateCex`, both `recA` and `recB` belong to requester 1
and `recB` resolves to a complete entry under `envCex`, yet because the
presign of `recA`'s original key fails, the whole history call aborts with
that error and `recB`'s entry is not returned. -/
theorem history_url_failure_aborts_call_cex :
    resolveHistoryEntry envCex recB = .ok entryB ∧
    getHistory envCex 1 stateCex = (.error "boom", stateCex) :=
  ⟨rfl, rfl⟩

/-- C7, amended: in `listHistory`, a signed-URL generation failure for any
of the requester's records aborts the whole call — the handler surfaces
the failure as an error for the entire request and returns no per-item
results. -/
theorem history_url_failure_aborts_whole_call (env : Env)
    (requesterId : Nat) (s : SysState) (r : ImageRecord) (msg : String)
    (hr : r ∈ s.records.filter (fun x => x.owner_id == requesterId))
    (hfail : resolveHistoryEntry env r = .error msg) :
    ∃ m, (getHistory env requesterId s).1 = .error m :=
  resolveHistory_error_of_mem env _ r msg hr hfail

theorem history_url_failure_aborts_whole_call_witness :
    ∃ m, (getHistory envCex 1 stateCex).1 = .error m :=
  history_url_failure_aborts_whole_call envCex 1 stateCex recA "boom"
    (by decide) rfl

/-- C8: for every accepted upload that completes, the blob key of the
stored original is `uploads/<owner>_<timestamp>_<original-filename>` and
the blob key of the stored result is `results/result_<job_id>.png`, where
`job_id` is the created record's id. -/
theorem upload_blob_key_layout (env : Env) (ownerId : Nat)
    (contentType fileName : String) (fileBytes : Bytes)
    (freshId timestamp : String) (now : Nat) (s : SysState)
    (resultBytes : Bytes)
    (hct : isImageContentType contentType = true)
    (hput : env.putOriginalOk = true)
    (hw : env.worker fileBytes = .ok resultBytes)
    (hput2 : env.putResultOk = true) :
    (uploadImage env ownerId contentType fileName fileBytes freshId
        timestamp now s).2.blobs
      = s.blobs ++
        [("uploads/" ++ Nat.repr ownerId ++ "_" ++ timestamp ++ "_"
            ++ fileName, fileBytes),
         ("results/result_" ++ freshId ++ ".png", resultBytes)] ∧
    (∃ r, (uploadImage env ownerId contentType fileName fileBytes freshId
        timestamp now s).2.records = s.records ++ [r] ∧ r.id = freshId ∧
      r.result_filename = some ("results/result_" ++ r.id ++ ".png")) := by
  rw [uploadImage_success env ownerId contentType fileName fileBytes freshId
    timestamp now s resultBytes hct hput hw hput2]
  exact ⟨rfl, ⟨_, rfl, rfl, rfl⟩⟩

theorem upload_blob_key_layout_witness :
    (uploadImage envW 1 "image/png" "room.jpg" [7] uuidW "ts" 5 s0).2.blobs
      = s0.blobs ++
        [("uploads/" ++ Nat.repr 1 ++ "_" ++ "ts" ++ "_" ++ "room.jpg", [7]),
         ("results/result_" ++ uuidW ++ ".png", [0, 7])] :=
  (upload_blob_key_layout envW 1 "image/png" "room.jpg" [7] uuidW "ts" 5 s0
    [0, 7] rfl rfl rfl rfl).1

/-- C9: in the router variant every record created by upload carries a
generated string UUID as its id while the `getResult` route declares its
path parameter as an integer; on any state whose records all carry
UUID-format ids, `getResult` with any integer id fails with `NotFound` —
an integer lookup never matches a UUID-string id, so such jobs are
unreachable through `getResult`. -/
theorem get_result_integer_lookup_never_finds_uuid_record (env : Env)
    (s : SysState) (hids : ∀ r ∈ s.records, isUuidString r.id = true)
    (imageId requesterId : Nat) :
    getResult env imageId requesterId s = (.error .notFound, s) := by
  have hfind : s.records.find? (fun r => r.id == Nat.repr imageId) = none := by
    rw [List.find?_eq_none]
    intro r hr
    simp [uuid_beq_repr_false (hids r hr) imageId]
  unfold getResult
  rw [hfind]

theorem get_result_integer_lookup_never_finds_uuid_record_witness :
    getResult envW 9 1 stateW = (.error .notFound, stateW) :=
  get_result_integer_lookup_never_finds_uuid_record envW stateW
    (by decide) 9 1

/-- C10: for every upload whose content type indicates an image but whose
bytes the worker cannot decode, submit does create side effects — the
original blob is stored and a job record is created — and that record ends
in status `failed` with a `ProcessingError` surfaced; unlike the non-image
content-type case a record exists afterward, and the `InvalidInput`
rejection can never fire since validation inspects only the declared
content type, never the bytes. -/
theorem upload_undecodable_image_creates_failed_record (env : Env)
    (ownerId : Nat) (contentType fileName : String) (fileBytes : Bytes)
    (freshId timestamp : String) (now : Nat) (s : SysState) (msg : String)
    (hct : isImageContentType contentType = true)
    (hput : env.putOriginalOk = true)
    (hw : env.worker fileBytes = .error msg) :
    uploadImage env ownerId contentType fileName fileBytes freshId timestamp
        now s
      = (.error (.processingError msg),
         { blobs := s.blobs ++
             [(uploadObjectName ownerId timestamp fileName, fileBytes)],
           records := s.records ++
             [{ newRecord freshId ownerId
                  (uploadObjectName ownerId timestamp fileName) now with
                status := .failed }] }) ∧
    (uploadImage env ownerId contentType fileName fileBytes freshId timestamp
        now s).1 ≠ .error .invalidInput ∧
    (uploadImage env ownerId contentType fileName fileBytes freshId timestamp
        now s).2.records ≠ s.records := by
  have h := uploadImage_worker_fails env ownerId contentType fileName
    fileBytes freshId timestamp now s msg hct hput hw
  refine ⟨h, ?_, ?_⟩
  · rw [h]
    intro hx
    cases hx
  · rw [h]
    intro hx
    have hlen := congrArg List.length hx
    simp at hlen

theorem upload_undecodable_image_creates_failed_record_witness :
    (uploadImage envFailW 1 "image/png" "broken.jpg" [9] uuidW "ts" 5
      s0).2.records ≠ s0.records :=
  (upload_undecodable_image_creates_failed_record envFailW 1 "image/png"
    "broken.jpg" [9] uuidW "ts" 5 s0 "cannot identify image file"
    rfl rfl rfl).2.2

end RoomSeg
